import Mathlib

/-!
Verification of the recurring-task generation engine of the TodoApp
repository (src/src/services/recurringTodoService.ts, the recurring-todo
HTTP routes, and the prisma migration
prisma/migrations/20260108000744_add_recurring_tasks/migration.sql).

Dates are modelled as civil calendar triples (year, month, day); the
JavaScript Date values compared by the service (via toISOString equality
and gte/lte range queries) correspond to structural equality and
chronological order on valid triples.
-/

namespace TodoApp

/-- A calendar date (the service works with UTC instants; only the date
component matters for the recurrence logic modelled here). -/
structure Date where
  year : Nat
  month : Nat
  day : Nat
deriving DecidableEq, Repr

/-- Gregorian leap-year rule. -/
def isLeapYear (y : Nat) : Bool := y % 4 = 0 && (y % 100 != 0 || y % 400 = 0)

/-- Number of days in a month of the Gregorian calendar. -/
def daysInMonth (y m : Nat) : Nat :=
  if m = 2 then (if isLeapYear y then 29 else 28)
  else if m = 4 ∨ m = 6 ∨ m = 9 ∨ m = 11 then 30
  else 31

/-- A strictly monotone key for chronological comparison of valid dates:
372 per year and 31 per month dominate any in-range day component. -/
def mu (x : Date) : Nat := 372 * x.year + 31 * x.month + x.day

/-- The date triple denotes an actual calendar day. -/
def ValidDate (x : Date) : Prop :=
  1 ≤ x.month ∧ x.month ≤ 12 ∧ 1 ≤ x.day ∧ x.day ≤ daysInMonth x.year x.month

instance (x : Date) : Decidable (ValidDate x) := by
  unfold ValidDate; infer_instance

/-- Chronological order on dates, as the store and the evaluator compare
them (equals ISO-string order for valid dates). -/
def dateLe (x y : Date) : Prop := mu x ≤ mu y

instance (x y : Date) : Decidable (dateLe x y) := by
  unfold dateLe; infer_instance

/-- The calendar successor of a date. -/
def nextDay (x : Date) : Date :=
  if x.day < daysInMonth x.year x.month then ⟨x.year, x.month, x.day + 1⟩
  else if x.month < 12 then ⟨x.year, x.month + 1, 1⟩
  else ⟨x.year + 1, 1, 1⟩

/-- Add a number of days to a date. -/
def addDays (x : Date) : Nat → Date
  | 0 => x
  | n + 1 => nextDay (addDays x n)

/-- The calendar predecessor of a date. -/
def prevDay (x : Date) : Date :=
  if 2 ≤ x.day then ⟨x.year, x.month, x.day - 1⟩
  else if 2 ≤ x.month then ⟨x.year, x.month - 1, daysInMonth x.year (x.month - 1)⟩
  else ⟨x.year - 1, 12, 31⟩

/-- Subtract a number of days from a date. -/
def subDays (x : Date) : Nat → Date
  | 0 => x
  | n + 1 => prevDay (subDays x n)

theorem one_le_daysInMonth (y m : Nat) : 1 ≤ daysInMonth y m := by
  unfold daysInMonth
  split
  · split <;> omega
  · split <;> omega

theorem daysInMonth_le (y m : Nat) : daysInMonth y m ≤ 31 := by
  unfold daysInMonth
  split
  · split <;> omega
  · split <;> omega

theorem daysInMonth_twelve (y : Nat) : daysInMonth y 12 = 31 := by
  unfold daysInMonth
  norm_num

theorem valid_nextDay {x : Date} (h : ValidDate x) : ValidDate (nextDay x) := by
  obtain ⟨h1, h2, h3, h4⟩ := h
  unfold nextDay
  split
  · exact ⟨h1, h2, by show 1 ≤ x.day + 1; omega,
      by show x.day + 1 ≤ daysInMonth x.year x.month; omega⟩
  · split
    · exact ⟨by show 1 ≤ x.month + 1; omega, by show x.month + 1 ≤ 12; omega,
        le_refl 1, one_le_daysInMonth x.year (x.month + 1)⟩
    · exact ⟨by show 1 ≤ 1; omega, by show (1 : Nat) ≤ 12; omega,
        le_refl 1, one_le_daysInMonth (x.year + 1) 1⟩

theorem mu_lt_mu_nextDay {x : Date} (h : ValidDate x) : mu x < mu (nextDay x) := by
  obtain ⟨h1, h2, h3, h4⟩ := h
  have hd : x.day ≤ 31 := le_trans h4 (daysInMonth_le _ _)
  unfold nextDay
  split
  · simp only [mu]; omega
  · split
    · simp only [mu]; omega
    · simp only [mu]; omega

theorem valid_addDays {x : Date} (h : ValidDate x) (n : Nat) :
    ValidDate (addDays x n) := by
  induction n with
  | zero => exact h
  | succ n ih => exact valid_nextDay ih

theorem mu_addDays_ge {x : Date} (h : ValidDate x) (n : Nat) :
    mu x + n ≤ mu (addDays x n) := by
  induction n with
  | zero => show mu x + 0 ≤ mu x; omega
  | succ n ih =>
      have := mu_lt_mu_nextDay (valid_addDays h n)
      show mu x + (n + 1) ≤ mu (nextDay (addDays x n))
      omega

theorem addDays_add (x : Date) (a b : Nat) :
    addDays x (a + b) = addDays (addDays x a) b := by
  induction b with
  | zero => rfl
  | succ b ih => show nextDay (addDays x (a + b)) = _ ; rw [ih]; rfl

theorem mu_addDays_lt {x : Date} (h : ValidDate x) {n m : Nat} (hnm : n < m) :
    mu (addDays x n) < mu (addDays x m) := by
  have hm : m = n + (m - n) := by omega
  rw [hm, addDays_add]
  have hge := mu_addDays_ge (valid_addDays h n) (m - n)
  omega

theorem valid_prevDay {x : Date} (h : ValidDate x) : ValidDate (prevDay x) := by
  obtain ⟨h1, h2, h3, h4⟩ := h
  unfold prevDay
  split
  · exact ⟨h1, h2, by show 1 ≤ x.day - 1; omega,
      by show x.day - 1 ≤ daysInMonth x.year x.month; omega⟩
  · split
    · exact ⟨by show 1 ≤ x.month - 1; omega, by show x.month - 1 ≤ 12; omega,
        one_le_daysInMonth x.year (x.month - 1), le_refl _⟩
    · exact ⟨by show (1 : Nat) ≤ 12; omega, le_refl 12, by show (1 : Nat) ≤ 31; omega,
        by show (31 : Nat) ≤ daysInMonth (x.year - 1) 12; rw [daysInMonth_twelve]⟩

theorem valid_subDays {x : Date} (h : ValidDate x) (n : Nat) :
    ValidDate (subDays x n) := by
  induction n with
  | zero => exact h
  | succ n ih => exact valid_prevDay ih

/-! ## Data model (prisma schema, migration 20260108000744_add_recurring_tasks) -/

/-- Recurrence frequency enum of the prisma schema. -/
inductive RecurrenceFrequency where
  | DAILY
  | WEEKLY
  | MONTHLY
  | YEARLY
deriving DecidableEq, Repr

/-- Recurrence end-type enum of the prisma schema. -/
inductive RecurrenceEndType where
  | NEVER
  | ON_DATE
  | AFTER_COUNT
deriving DecidableEq, Repr

/-- A RecurringTodo row. byWeekDay is stored in the database as a JSON
string and parsed back to a list of weekday codes by the service; it is
modelled directly as the optional list. lastGenerated is an advisory
timestamp, modelled as an abstract Nat clock value. -/
structure RecurringTodo where
  id : Nat
  userId : Nat
  title : String
  description : String
  priority : String
  frequency : RecurrenceFrequency
  interval : Nat
  byWeekDay : Option (List String)
  byMonthDay : Option Nat
  startDate : Date
  endType : RecurrenceEndType
  endDate : Option Date
  count : Option Nat
  lastGenerated : Option Nat
  isActive : Bool
deriving DecidableEq, Repr

/-- A RecurrenceException row; action is a TEXT column holding the string
skip or reschedule. -/
structure RecurrenceException where
  id : Nat
  recurringTodoId : Nat
  originalDate : Date
  action : String
  newDate : Option Date
deriving DecidableEq, Repr

/-- A Todo row (the columns relevant to the recurrence engine). -/
structure Todo where
  id : Nat
  userId : Nat
  title : String
  description : String
  priority : String
  dueDate : Date
  isComplete : Bool
  recurringTodoId : Option Nat
  recurringDate : Option Date
deriving DecidableEq, Repr

/-- The relational store: the three tables touched by the engine, plus
autoincrement counters for the two tables the engine inserts into. -/
structure Store where
  recurringTodos : List RecurringTodo
  todos : List Todo
  exceptions : List RecurrenceException
  nextTodoId : Nat
  nextExceptionId : Nat
deriving DecidableEq, Repr

/-! ## Recurrence rule evaluator

The service builds an option record from the template (recurringTodoService.ts,
getOccurrences, lines 223-268) and delegates the actual occurrence computation
to the third-party rrule library, whose source is not part of this repository.
The option building below is translated from the source; the candidate
generators are modelled from the spec (section 4.1 of spec.md): DAILY at
startDate plus k times interval days, WEEKLY likewise in weeks or per listed
weekday inside each active week, MONTHLY on the anchor day-of-month clamped
to the length of the target month, YEARLY on the same month and day. -/

/-- rrule weekday codes, Monday-based (MO = 0 .. SU = 6). -/
def weekdayName : Nat → String
  | 0 => "MO"
  | 1 => "TU"
  | 2 => "WE"
  | 3 => "TH"
  | 4 => "FR"
  | 5 => "SA"
  | _ => "SU"

/-- Monday-based weekday index of a date (Sakamoto congruence). -/
def weekdayMon (x : Date) : Nat :=
  let ym := if x.month < 3 then x.year - 1 else x.year
  let t := [0, 3, 2, 5, 0, 3, 5, 1, 4, 6, 2, 4]
  ((ym + ym / 4 + ym / 400 + t.getD (x.month - 1) 0 + x.day - ym / 100) % 7 + 6) % 7

/-- First day (Monday) of the week containing the date. -/
def weekStartOf (x : Date) : Date := subDays x (weekdayMon x)

/-- Modelled from the spec: candidate occurrences advancing by a fixed
number of days per period (DAILY, and WEEKLY without byWeekDay with a
seven-day step). -/
def stepCands (start : Date) (step fuel : Nat) : List Date :=
  (List.range fuel).map (fun k => addDays start (k * step))

/-- Day offsets (from the first active week start) of the per-week
occurrences of a WEEKLY byWeekDay rule, in chronological order. -/
def weeklyNs (offs : List Nat) (step : Nat) : Nat → List Nat
  | 0 => []
  | f + 1 => weeklyNs offs step f ++ offs.map (fun o => f * step + o)

/-- Modelled from the spec: WEEKLY with byWeekDay emits one candidate per
listed weekday inside each active week; the first active week is the one
containing startDate (candidates before startDate are filtered later). -/
def weeklyByDayCands (start : Date) (names : List String) (interval fuel : Nat) :
    List Date :=
  let offs := (List.range 7).filter (fun j => names.contains (weekdayName j))
  (weeklyNs offs (7 * interval) fuel).map (addDays (weekStartOf start))

/-- Modelled from the spec: the k-th MONTHLY candidate, on the anchor
day-of-month clamped to the length of the target month. -/
def monthlyCand (y0 m0 anchor interval k : Nat) : Date :=
  let idx := 12 * y0 + (m0 - 1) + k * interval
  ⟨idx / 12, idx % 12 + 1, min anchor (daysInMonth (idx / 12) (idx % 12 + 1))⟩

/-- MONTHLY candidates starting from the month of startDate. -/
def monthlyCands (start : Date) (anchor interval fuel : Nat) : List Date :=
  (List.range fuel).map (monthlyCand start.year start.month anchor interval)

/-- Modelled from the spec: the k-th YEARLY candidate, on the same month
and day as startDate (day clamped for a Feb-29 anchor in non-leap years). -/
def yearlyCand (start : Date) (interval k : Nat) : Date :=
  ⟨start.year + k * interval, start.month,
    min start.day (daysInMonth (start.year + k * interval) start.month)⟩

/-- YEARLY candidates. -/
def yearlyCands (start : Date) (interval fuel : Nat) : List Date :=
  (List.range fuel).map (yearlyCand start interval)

/-- Enough candidate periods to cover every occurrence up to the window
end: each period advances the chronological key by at least one. -/
def fuelFor (start bound : Date) : Nat := mu bound + 2 - mu start

/-- Anchor day-of-month of a MONTHLY rule: byMonthDay when set (the source
tests JavaScript truthiness, so 0 is ignored), else the day of startDate
(the rrule default derived from dtstart). -/
def anchorDayOf (rt : RecurringTodo) : Nat :=
  match rt.byMonthDay with
  | some k => if k = 0 then rt.startDate.day else k
  | none => rt.startDate.day

/-- rrule until bound: occurrences past the bound are dropped. -/
def applyUntil : Option Date → List Date → List Date
  | none, l => l
  | some e, l => l.filter (fun d => decide (dateLe d e))

/-- rrule count bound: only the first count occurrences of the rule. -/
def applyCount : Option Nat → List Date → List Date
  | none, l => l
  | some n, l => l.take n

/-- End-condition options exactly as the source builds them
(recurringTodoService.ts lines 251-262): until is set only when endType is
ON_DATE and endDate is non-null; otherwise count is set only when endType
is AFTER_COUNT and count is JavaScript-truthy (non-null and non-zero). -/
def buildEnd (rt : RecurringTodo) : Option Date × Option Nat :=
  if rt.endType = RecurrenceEndType.ON_DATE ∧ rt.endDate ≠ none then (rt.endDate, none)
  else if rt.endType = RecurrenceEndType.AFTER_COUNT ∧ rt.count ≠ none ∧
      rt.count ≠ some 0 then (none, rt.count)
  else (none, none)

/-- Raw candidates by frequency, mirroring the option building of the
source (byweekday only for WEEKLY with byWeekDay set, bymonthday only for
MONTHLY with a truthy byMonthDay). -/
def rawCands (rt : RecurringTodo) (fuel : Nat) : List Date :=
  match rt.frequency with
  | RecurrenceFrequency.DAILY => stepCands rt.startDate rt.interval fuel
  | RecurrenceFrequency.WEEKLY =>
      match rt.byWeekDay with
      | some names => weeklyByDayCands rt.startDate names rt.interval fuel
      | none => stepCands rt.startDate (7 * rt.interval) fuel
  | RecurrenceFrequency.MONTHLY =>
      monthlyCands rt.startDate (anchorDayOf rt) rt.interval fuel
  | RecurrenceFrequency.YEARLY => yearlyCands rt.startDate rt.interval fuel

/-- The global occurrence list of the rule (before any end condition),
up to a horizon covering the given bound: raw candidates at or after
startDate, in chronological order. The k-th entry is the k-th occurrence
of the rule counted from startDate. -/
def ruleOccurrences (rt : RecurringTodo) (bound : Date) : List Date :=
  (rawCands rt (fuelFor rt.startDate bound)).filter
    (fun d => decide (dateLe rt.startDate d))

/-- getOccurrences of the service: rule occurrences never before
startDate, capped by the end condition, restricted to the inclusive
window (rrule between with inc = true). -/
def getOccurrences (rt : RecurringTodo) (fromDate toDate : Date) : List Date :=
  (applyCount (buildEnd rt).2 (applyUntil (buildEnd rt).1 (ruleOccurrences rt toDate))).filter
    (fun d => decide (dateLe fromDate d ∧ dateLe d toDate))

/-! ## Instance materializer (recurringTodoService.ts, generateInstances,
lines 141-218) and the storage operations it relies on -/

/-- findUnique on RecurringTodo by id. -/
def findTemplate (s : Store) (id : Nat) : Option RecurringTodo :=
  s.recurringTodos.find? (fun rt => decide (rt.id = id))

/-- The exceptions included with the loaded template: all exception rows
of this template. -/
def excsFor (s : Store) (id : Nat) : List RecurrenceException :=
  s.exceptions.filter (fun e => decide (e.recurringTodoId = id))

/-- The instances included with the loaded template: rows of this template
whose recurringDate lies in the inclusive window (a gte/lte range query on
a nullable column excludes null). -/
def existingTodosInRange (s : Store) (id : Nat) (a b : Date) : List Todo :=
  s.todos.filter (fun td =>
    decide (td.recurringTodoId = some id) &&
      (match td.recurringDate with
       | some d => decide (dateLe a d) && decide (dateLe d b)
       | none => false))

/-- The existing-date set the materializer builds from the loaded
instances (the source keys it by ISO string; for dates that is structural
equality). -/
def existingDatesOf (s : Store) (id : Nat) (a b : Date) : List Date :=
  (existingTodosInRange s id a b).filterMap (fun td => td.recurringDate)

/-- The exception lookup map keyed by originalDate ISO string; a
JavaScript Map built from a list keeps the last entry for a repeated key. -/
def lookupExc (excs : List RecurrenceException) (d : Date) : Option RecurrenceException :=
  excs.foldl (fun acc e => if e.originalDate = d then some e else acc) none

/-- The skip test of the loop: exception present with action skip. -/
def excIsSkip : Option RecurrenceException → Bool
  | some e => decide (e.action = "skip")
  | none => false

/-- Due-date resolution of the loop: the newDate of a reschedule exception
when present (JavaScript truthiness on newDate), else the occurrence date. -/
def resolveDue : Option RecurrenceException → Date → Date
  | some e, d =>
      (match e.newDate with
       | some nd => if e.action = "reschedule" then nd else d
       | none => d)
  | none, d => d

/-- The Todo row the materializer inserts for one occurrence: stamped with
the template payload, dueDate the resolved due date, recurringDate the
original occurrence date. -/
def mkTodo (rt : RecurringTodo) (nid : Nat) (due d : Date) : Todo :=
  { id := nid, userId := rt.userId, title := rt.title,
    description := rt.description, priority := rt.priority, dueDate := due,
    isComplete := false, recurringTodoId := some rt.id, recurringDate := some d }

/-- The creation loop of generateInstances (lines 179-211): for each
occurrence date, skip it when it is already materialized, skip it on a
skip exception, otherwise insert a new row. Returns the created rows in
order together with the next autoincrement id. -/
def createLoop (rt : RecurringTodo) (existing : List Date)
    (excs : List RecurrenceException) (nid : Nat) : List Date → List Todo × Nat
  | [] => ([], nid)
  | d :: rest =>
      if d ∈ existing then createLoop rt existing excs nid rest
      else if excIsSkip (lookupExc excs d) then createLoop rt existing excs nid rest
      else
        (mkTodo rt nid (resolveDue (lookupExc excs d) d) d ::
            (createLoop rt existing excs (nid + 1) rest).1,
          (createLoop rt existing excs (nid + 1) rest).2)

/-- Stamp lastGenerated on the template row with the given id. -/
def touchLastGenerated (id now : Nat) (rt : RecurringTodo) : RecurringTodo :=
  if rt.id = id then { rt with lastGenerated := some now } else rt

/-- The final update of generateInstances: stamp lastGenerated on the
template row. -/
def updateLastGenerated (s : Store) (id now : Nat) : Store :=
  { s with recurringTodos := s.recurringTodos.map (touchLastGenerated id now) }

/-- The creation loop of a run, applied to the data generateInstances
loads for the template: the in-window existing dates, the exception rows
of the template, and the computed occurrences. -/
def runCreated (s : Store) (recurringTodoId : Nat) (fromDate toDate : Date)
    (rt : RecurringTodo) : List Todo × Nat :=
  createLoop rt (existingDatesOf s recurringTodoId fromDate toDate)
    (excsFor s recurringTodoId) s.nextTodoId (getOccurrences rt fromDate toDate)

/-- Append the rows created by the loop to the Todo table. -/
def afterCreate (s : Store) (created : List Todo × Nat) : Store :=
  { s with todos := s.todos ++ created.1, nextTodoId := created.2 }

/-- generateInstances as a state transformer. The returned Nat is the
number of insert calls the run performed, recorded here as an observation
of the run; the TypeScript function itself has return type Promise of
void, so this count is not returned to its callers. A missing or inactive
template is an immediate no-op. -/
def generateInstances (s : Store) (recurringTodoId : Nat) (fromDate toDate : Date)
    (now : Nat) : Store × Nat :=
  match findTemplate s recurringTodoId with
  | none => (s, 0)
  | some rt =>
      if rt.isActive = false then (s, 0)
      else
        (updateLastGenerated
            (afterCreate s (runCreated s recurringTodoId fromDate toDate rt))
            recurringTodoId now,
          (runCreated s recurringTodoId fromDate toDate rt).1.length)

/-- The value the TypeScript generateInstances returns to its caller: its
return type is Promise of void, so the caller always receives the unit
value, whatever the run did. -/
def generateInstancesReturn (_s : Store) (_recurringTodoId : Nat)
    (_fromDate _toDate : Date) (_now : Nat) : Unit := ()

/-- A Todo row references the given template with the given recurringDate. -/
def instMatch (tid : Nat) (d : Date) (td : Todo) : Bool :=
  decide (td.recurringTodoId = some tid ∧ td.recurringDate = some d)

/-- Number of Todo rows of a given template with a given recurringDate. -/
def instCount (s : Store) (tid : Nat) (d : Date) : Nat :=
  s.todos.countP (instMatch tid d)

/-- Number of exception rows for a (template, originalDate) pair. -/
def excCount (s : Store) (tid : Nat) (d : Date) : Nat :=
  s.exceptions.countP (fun e =>
    decide (e.recurringTodoId = tid ∧ e.originalDate = d))

/-- Insert of a Todo row (prisma todo.create). The migration defines no
unique index over (recurringTodoId, recurringDate) - only the non-unique
index Todo_recurringTodoId_idx - so the insert always succeeds, even when
a row with the same template and recurringDate already exists. -/
def createTodo (s : Store) (userId : Nat) (title description priority : String)
    (dueDate : Date) (recurringTodoId : Option Nat) (recurringDate : Option Date) :
    Store × Todo :=
  let td : Todo := ⟨s.nextTodoId, userId, title, description, priority,
    dueDate, false, recurringTodoId, recurringDate⟩
  ({ s with todos := s.todos ++ [td], nextTodoId := s.nextTodoId + 1 }, td)

/-! ## Exceptions: service addException (lines 297-311) and the HTTP route
POST /:id/exceptions; the unique index
RecurrenceException_recurringTodoId_originalDate_key makes the insert fail
with a constraint error (prisma code P2002) on a duplicate pair. -/

/-- The service-level addException: a bare insert with no validation; the
store rejects it only when the (recurringTodoId, originalDate) pair
already has an exception row. -/
def addException (s : Store) (recurringTodoId : Nat) (originalDate : Date)
    (action : String) (newDate : Option Date) :
    Except String (Store × RecurrenceException) :=
  if s.exceptions.any (fun e =>
      decide (e.recurringTodoId = recurringTodoId ∧ e.originalDate = originalDate)) then
    Except.error "P2002"
  else
    let e : RecurrenceException := ⟨s.nextExceptionId, recurringTodoId,
      originalDate, action, newDate⟩
    Except.ok ({ s with exceptions := s.exceptions ++ [e], nextExceptionId := s.nextExceptionId + 1 }, e)

/-- The request body of POST /:id/exceptions; the id path parameter is
none when parseInt yields NaN, and absent body fields are none. -/
structure ExceptionRequest where
  idParam : Option Nat
  originalDate : Option Date
  action : Option String
  newDate : Option Date

/-- The POST /:id/exceptions route handler (recurringTodos router, lines
261-305): 400 on a bad id, a missing originalDate or action, an unknown
action, or a reschedule without newDate; then the service call; a thrown
storage error (in particular the duplicate-pair constraint error) is
caught and answered with 500; success answers 201. Returns the HTTP
status and the resulting store. -/
def postException (s : Store) (req : ExceptionRequest) : Nat × Store :=
  match req.idParam with
  | none => (400, s)
  | some id =>
      match req.originalDate, req.action with
      | some od, some act =>
          if ¬(act = "skip" ∨ act = "reschedule") then (400, s)
          else if act = "reschedule" ∧ req.newDate = none then (400, s)
          else
            match addException s id od act req.newDate with
            | Except.ok (s2, _) => (201, s2)
            | Except.error _ => (500, s)
      | _, _ => (400, s)

/-- The service delete (lines 130-135, a deleteMany over id and userId)
together with the foreign-key actions of the migration: exception rows of
a deleted template are removed (RecurrenceException_recurringTodoId_fkey
is ON DELETE CASCADE, line 31), while Todo rows keep existing and only
have recurringTodoId set to null (Todo_recurringTodoId_fkey is ON DELETE
SET NULL, line 51). The id column is the primary key, so a matched row is
the unique holder of that id. Returns the store and whether a row was
deleted. -/
def deleteRecurringTodo (s : Store) (id userId : Nat) : Store × Bool :=
  let matched := s.recurringTodos.filter (fun rt => decide (rt.id = id ∧ rt.userId = userId))
  if matched.isEmpty then (s, false)
  else
    let rts := s.recurringTodos.filter (fun rt => !decide (rt.id = id ∧ rt.userId = userId))
    let exs := s.exceptions.filter (fun e => decide (e.recurringTodoId ≠ id))
    let tds := s.todos.map (fun td => if td.recurringTodoId = some id then { td with recurringTodoId := none } else td)
    ({ s with recurringTodos := rts, exceptions := exs, todos := tds }, true)

/-! ## Ordering of the evaluator output -/

theorem stepCands_pairwise {start : Date} (hv : ValidDate start) {step : Nat}
    (hs : 1 ≤ step) (fuel : Nat) :
    List.Pairwise (fun x y => mu x < mu y) (stepCands start step fuel) := by
  refine List.Pairwise.map _ ?_ (List.pairwise_lt_range fuel)
  intro a b hab
  exact mu_addDays_lt hv (by exact Nat.mul_lt_mul_of_lt_of_le hab (le_refl step) hs)

theorem weeklyNs_lt {offs : List Nat} {step : Nat}
    (hbound : ∀ o ∈ offs, o < step) (f : Nat) :
    ∀ x ∈ weeklyNs offs step f, x < f * step := by
  induction f with
  | zero => intro x hx; simp [weeklyNs] at hx
  | succ f ih =>
      intro x hx
      unfold weeklyNs at hx
      have hfs : (f + 1) * step = f * step + step := by ring
      rcases List.mem_append.mp hx with h | h
      · have := ih x h
        omega
      · obtain ⟨o, ho, rfl⟩ := List.mem_map.mp h
        have := hbound o ho
        omega

theorem weeklyNs_pairwise {offs : List Nat} {step : Nat}
    (hp : List.Pairwise (· < ·) offs) (hbound : ∀ o ∈ offs, o < step) (f : Nat) :
    List.Pairwise (· < ·) (weeklyNs offs step f) := by
  induction f with
  | zero => exact List.Pairwise.nil
  | succ f ih =>
      unfold weeklyNs
      refine List.pairwise_append.mpr ⟨ih, ?_, ?_⟩
      · exact List.Pairwise.map _ (fun a b hab => by omega) hp
      · intro x hx y hy
        obtain ⟨o, _, rfl⟩ := List.mem_map.mp hy
        have := weeklyNs_lt hbound f x hx
        omega

theorem weeklyByDayCands_pairwise {start : Date} (hv : ValidDate start)
    {interval : Nat} (hi : 1 ≤ interval) (names : List String) (fuel : Nat) :
    List.Pairwise (fun x y => mu x < mu y)
      (weeklyByDayCands start names interval fuel) := by
  unfold weeklyByDayCands
  have hoff : List.Pairwise (· < ·)
      ((List.range 7).filter (fun j => names.contains (weekdayName j))) :=
    (List.pairwise_lt_range 7).filter _
  have hbound : ∀ o ∈ (List.range 7).filter (fun j => names.contains (weekdayName j)),
      o < 7 * interval := by
    intro o ho
    have := List.mem_range.mp (List.mem_filter.mp ho).1
    have : 7 ≤ 7 * interval := by omega
    omega
  exact List.Pairwise.map _
    (fun a b hab => mu_addDays_lt (valid_subDays hv _) hab)
    (weeklyNs_pairwise hoff hbound fuel)

theorem mu_monthlyCand (y0 m0 anchor interval k : Nat) :
    mu (monthlyCand y0 m0 anchor interval k) =
      31 * (12 * y0 + (m0 - 1) + k * interval) + 31 +
        min anchor
          (daysInMonth ((12 * y0 + (m0 - 1) + k * interval) / 12)
            ((12 * y0 + (m0 - 1) + k * interval) % 12 + 1)) := by
  unfold monthlyCand mu
  have := Nat.div_add_mod (12 * y0 + (m0 - 1) + k * interval) 12
  simp only []
  omega

theorem monthlyCands_pairwise {anchor interval : Nat} (ha : 1 ≤ anchor)
    (hi : 1 ≤ interval) (start : Date) (fuel : Nat) :
    List.Pairwise (fun x y => mu x < mu y) (monthlyCands start anchor interval fuel) := by
  refine List.Pairwise.map _ ?_ (List.pairwise_lt_range fuel)
  intro a b hab
  rw [mu_monthlyCand, mu_monthlyCand]
  have h1 : min anchor (daysInMonth ((12 * start.year + (start.month - 1) + a * interval) / 12)
      ((12 * start.year + (start.month - 1) + a * interval) % 12 + 1)) ≤ 31 :=
    le_trans (min_le_right _ _) (daysInMonth_le _ _)
  have h2 : 1 ≤ min anchor (daysInMonth ((12 * start.year + (start.month - 1) + b * interval) / 12)
      ((12 * start.year + (start.month - 1) + b * interval) % 12 + 1)) :=
    le_min ha (one_le_daysInMonth _ _)
  have h3 : a * interval + interval ≤ b * interval := by
    have h4 := Nat.mul_le_mul_right interval (show a + 1 ≤ b from hab)
    have h5 : (a + 1) * interval = a * interval + interval := by ring
    omega
  omega

theorem yearlyCands_pairwise {start : Date} (hd : 1 ≤ start.day)
    {interval : Nat} (hi : 1 ≤ interval) (fuel : Nat) :
    List.Pairwise (fun x y => mu x < mu y) (yearlyCands start interval fuel) := by
  refine List.Pairwise.map _ ?_ (List.pairwise_lt_range fuel)
  intro a b hab
  unfold yearlyCand mu
  simp only []
  have h1 : min start.day (daysInMonth (start.year + a * interval) start.month) ≤ 31 :=
    le_trans (min_le_right _ _) (daysInMonth_le _ _)
  have h2 : 1 ≤ min start.day (daysInMonth (start.year + b * interval) start.month) :=
    le_min hd (one_le_daysInMonth _ _)
  have h3 : a * interval + interval ≤ b * interval := by
    have h4 := Nat.mul_le_mul_right interval (show a + 1 ≤ b from hab)
    have h5 : (a + 1) * interval = a * interval + interval := by ring
    omega
  omega

theorem one_le_anchorDayOf {rt : RecurringTodo} (hv : ValidDate rt.startDate) :
    1 ≤ anchorDayOf rt := by
  unfold anchorDayOf
  obtain ⟨_, _, h3, _⟩ := hv
  cases h : rt.byMonthDay with
  | none => exact h3
  | some k =>
      by_cases hk : k = 0
      · simp [hk]; exact h3
      · simp [hk]; omega

theorem rawCands_pairwise {rt : RecurringTodo} (hv : ValidDate rt.startDate)
    (hi : 1 ≤ rt.interval) (fuel : Nat) :
    List.Pairwise (fun x y => mu x < mu y) (rawCands rt fuel) := by
  unfold rawCands
  cases rt.frequency with
  | DAILY => exact stepCands_pairwise hv hi fuel
  | WEEKLY =>
      cases rt.byWeekDay with
      | some names => exact weeklyByDayCands_pairwise hv hi names fuel
      | none => exact stepCands_pairwise hv (by omega) fuel
  | MONTHLY => exact monthlyCands_pairwise (one_le_anchorDayOf hv) hi rt.startDate fuel
  | YEARLY => exact yearlyCands_pairwise hv.2.2.1 hi fuel

theorem applyUntil_pairwise {R : Date → Date → Prop} {l : List Date}
    (h : List.Pairwise R l) (u : Option Date) : List.Pairwise R (applyUntil u l) := by
  cases u with
  | none => exact h
  | some e => exact h.filter _

theorem applyCount_pairwise {R : Date → Date → Prop} {l : List Date}
    (h : List.Pairwise R l) (c : Option Nat) : List.Pairwise R (applyCount c l) := by
  cases c with
  | none => exact h
  | some n => exact h.sublist (List.take_sublist n l)

theorem getOccurrences_pairwise {rt : RecurringTodo} (hv : ValidDate rt.startDate)
    (hi : 1 ≤ rt.interval) (a b : Date) :
    List.Pairwise (fun x y => mu x < mu y) (getOccurrences rt a b) := by
  unfold getOccurrences ruleOccurrences
  exact (applyCount_pairwise (applyUntil_pairwise
    ((rawCands_pairwise hv hi _).filter _) _) _).filter _

theorem getOccurrences_nodup {rt : RecurringTodo} (hv : ValidDate rt.startDate)
    (hi : 1 ≤ rt.interval) (a b : Date) : (getOccurrences rt a b).Nodup := by
  refine (getOccurrences_pairwise hv hi a b).imp ?_
  intro x y hxy heq
  subst heq
  omega

theorem getOccurrences_window {rt : RecurringTodo} {a b d : Date}
    (h : d ∈ getOccurrences rt a b) : dateLe a d ∧ dateLe d b := by
  unfold getOccurrences at h
  have := (List.mem_filter.mp h).2
  exact of_decide_eq_true this

theorem getOccurrences_lastGenerated (rt : RecurringTodo) (v : Option Nat)
    (a b : Date) :
    getOccurrences { rt with lastGenerated := v } a b = getOccurrences rt a b := rfl

/-! ## Materializer lemmas -/

theorem mem_existingDatesOf {s : Store} {id : Nat} {a b d : Date} :
    d ∈ existingDatesOf s id a b ↔
      ∃ td ∈ s.todos, td.recurringTodoId = some id ∧ td.recurringDate = some d ∧
        dateLe a d ∧ dateLe d b := by
  unfold existingDatesOf existingTodosInRange
  simp only [List.mem_filterMap, List.mem_filter, Bool.and_eq_true, decide_eq_true_eq]
  constructor
  · rintro ⟨td, ⟨⟨hmem, hid, hmatch⟩, hrd⟩⟩
    rw [hrd] at hmatch
    simp only [Bool.and_eq_true, decide_eq_true_eq] at hmatch
    exact ⟨td, hmem, hid, hrd, hmatch.1, hmatch.2⟩
  · rintro ⟨td, hmem, hid, hrd, h3, h4⟩
    refine ⟨td, ⟨⟨hmem, hid, ?_⟩, hrd⟩⟩
    rw [hrd]
    simp [h3, h4]

theorem createLoop_mem {rt : RecurringTodo} {existing : List Date}
    {excs : List RecurrenceException} :
    ∀ {ds : List Date} {nid : Nat} {td : Todo},
      td ∈ (createLoop rt existing excs nid ds).1 →
      ∃ d ∈ ds, d ∉ existing ∧ excIsSkip (lookupExc excs d) = false ∧
        td.recurringTodoId = some rt.id ∧ td.recurringDate = some d ∧
        td.dueDate = resolveDue (lookupExc excs d) d := by
  intro ds
  induction ds with
  | nil => intro nid td h; simp [createLoop] at h
  | cons d0 rest ih =>
      intro nid td h
      simp only [createLoop] at h
      by_cases h1 : d0 ∈ existing
      · rw [if_pos h1] at h
        obtain ⟨d, hd, hrest⟩ := ih h
        exact ⟨d, List.mem_cons_of_mem _ hd, hrest⟩
      · rw [if_neg h1] at h
        by_cases h2 : excIsSkip (lookupExc excs d0) = true
        · rw [if_pos h2] at h
          obtain ⟨d, hd, hrest⟩ := ih h
          exact ⟨d, List.mem_cons_of_mem _ hd, hrest⟩
        · rw [if_neg h2] at h
          have h2f : excIsSkip (lookupExc excs d0) = false := by
            revert h2; cases excIsSkip (lookupExc excs d0) <;> simp
          rcases List.mem_cons.mp h with rfl | hm
          · exact ⟨d0, List.mem_cons_self _ _, h1, h2f, rfl, rfl, rfl⟩
          · obtain ⟨d, hd, hrest⟩ := ih hm
            exact ⟨d, List.mem_cons_of_mem _ hd, hrest⟩

theorem createLoop_covers {rt : RecurringTodo} {existing : List Date}
    {excs : List RecurrenceException} :
    ∀ {ds : List Date} (nid : Nat) {d : Date}, d ∈ ds →
      d ∈ existing ∨ excIsSkip (lookupExc excs d) = true ∨
        ∃ td ∈ (createLoop rt existing excs nid ds).1, td.recurringDate = some d := by
  intro ds
  induction ds with
  | nil => intro nid d h; simp at h
  | cons d0 rest ih =>
      intro nid d h
      rcases List.mem_cons.mp h with rfl | hm
      · by_cases h1 : d ∈ existing
        · exact Or.inl h1
        · by_cases h2 : excIsSkip (lookupExc excs d) = true
          · exact Or.inr (Or.inl h2)
          · refine Or.inr (Or.inr ⟨mkTodo rt nid (resolveDue (lookupExc excs d) d) d, ?_, rfl⟩)
            simp only [createLoop, if_neg h1, if_neg h2]
            exact List.mem_cons_self _ _
      · by_cases h1 : d0 ∈ existing
        · simpa only [createLoop, if_pos h1] using ih nid hm
        · by_cases h2 : excIsSkip (lookupExc excs d0) = true
          · simpa only [createLoop, if_neg h1, if_pos h2] using ih nid hm
          · rcases ih (nid + 1) hm with h' | h' | ⟨td, htd, hrd⟩
            · exact Or.inl h'
            · exact Or.inr (Or.inl h')
            · refine Or.inr (Or.inr ⟨td, ?_, hrd⟩)
              simp only [createLoop, if_neg h1, if_neg h2]
              exact List.mem_cons_of_mem _ htd

theorem createLoop_nil {rt : RecurringTodo} {existing : List Date}
    {excs : List RecurrenceException} :
    ∀ {ds : List Date} (nid : Nat),
      (∀ d ∈ ds, d ∈ existing ∨ excIsSkip (lookupExc excs d) = true) →
      (createLoop rt existing excs nid ds).1 = [] := by
  intro ds
  induction ds with
  | nil => intro nid _; rfl
  | cons d0 rest ih =>
      intro nid h
      rcases h d0 (List.mem_cons_self _ _) with h1 | h2
      · simp only [createLoop, if_pos h1]
        exact ih nid (fun d hd => h d (List.mem_cons_of_mem _ hd))
      · by_cases h1 : d0 ∈ existing
        · simp only [createLoop, if_pos h1]
          exact ih nid (fun d hd => h d (List.mem_cons_of_mem _ hd))
        · simp only [createLoop, if_neg h1, if_pos h2]
          exact ih nid (fun d hd => h d (List.mem_cons_of_mem _ hd))

theorem createLoop_count_le_one {rt : RecurringTodo} {existing : List Date}
    {excs : List RecurrenceException} {tid : Nat} {d : Date} :
    ∀ {ds : List Date} (nid : Nat), ds.Nodup →
      ((createLoop rt existing excs nid ds).1.countP (instMatch tid d)) ≤ 1 := by
  intro ds
  induction ds with
  | nil => intro nid _; simp [createLoop]
  | cons d0 rest ih =>
      intro nid hnd
      have hd0 : d0 ∉ rest := (List.nodup_cons.mp hnd).1
      have hrest : rest.Nodup := (List.nodup_cons.mp hnd).2
      by_cases h1 : d0 ∈ existing
      · simp only [createLoop, if_pos h1]
        exact ih nid hrest
      · by_cases h2 : excIsSkip (lookupExc excs d0) = true
        · simp only [createLoop, if_neg h1, if_pos h2]
          exact ih nid hrest
        · simp only [createLoop, if_neg h1, if_neg h2, List.countP_cons]
          by_cases hd : d0 = d
          · subst hd
            have hz : ((createLoop rt existing excs (nid + 1) rest).1.countP
                (instMatch tid d0)) = 0 := by
              refine List.countP_eq_zero.mpr ?_
              intro td htd hp
              obtain ⟨d', hd', _h3, _h4, _h5, hrd, _h6⟩ := createLoop_mem htd
              unfold instMatch at hp
              have hpp := of_decide_eq_true hp
              rw [hrd] at hpp
              have hdd : d' = d0 := Option.some.inj hpp.2
              exact hd0 (hdd ▸ hd')
            rw [hz]
            split <;> omega
          · have hp : instMatch tid d (mkTodo rt nid (resolveDue (lookupExc excs d0) d0) d0) = false := by
              unfold instMatch mkTodo
              simp [hd]
            rw [hp]
            simpa using ih (nid + 1) hrest

theorem findTemplate_id {s : Store} {id : Nat} {rt : RecurringTodo}
    (h : findTemplate s id = some rt) : rt.id = id := by
  unfold findTemplate at h
  have hp := @List.find?_some RecurringTodo (fun rt => decide (rt.id = id)) rt
    s.recurringTodos h
  exact of_decide_eq_true hp

theorem find_touch (l : List RecurringTodo) (id now : Nat) :
    (l.map (touchLastGenerated id now)).find? (fun rt => decide (rt.id = id)) =
      (l.find? (fun rt => decide (rt.id = id))).map
        (fun rt => { rt with lastGenerated := some now }) := by
  induction l with
  | nil => rfl
  | cons rt rest ih =>
      by_cases h : rt.id = id
      · simp [touchLastGenerated, h, List.find?_cons]
      · simp [touchLastGenerated, h, List.find?_cons, ih]

theorem findTemplate_update (s : Store) (id now : Nat) :
    findTemplate (updateLastGenerated s id now) id =
      (findTemplate s id).map (fun rt => { rt with lastGenerated := some now }) :=
  find_touch s.recurringTodos id now

theorem generateInstances_missing {s : Store} {id : Nat} {a b : Date} {now : Nat}
    (hf : findTemplate s id = none) : generateInstances s id a b now = (s, 0) := by
  unfold generateInstances
  rw [hf]

theorem generateInstances_inactive {s : Store} {id : Nat} {a b : Date} {now : Nat}
    {rt : RecurringTodo} (hf : findTemplate s id = some rt)
    (ha : rt.isActive = false) : generateInstances s id a b now = (s, 0) := by
  unfold generateInstances
  rw [hf]
  simp [ha]

theorem generateInstances_active {s : Store} {id : Nat} {a b : Date} {now : Nat}
    {rt : RecurringTodo} (hf : findTemplate s id = some rt)
    (ha : rt.isActive = true) :
    generateInstances s id a b now =
      (updateLastGenerated (afterCreate s (runCreated s id a b rt)) id now,
        (runCreated s id a b rt).1.length) := by
  unfold generateInstances
  rw [hf]
  simp [ha]

theorem findTemplate_afterCreate (s : Store) (c : List Todo × Nat) (id : Nat) :
    findTemplate (afterCreate s c) id = findTemplate s id := rfl

theorem bool_not_true {x : Bool} (h : ¬x = true) : x = false := by
  revert h; cases x <;> simp

theorem run_covers {s : Store} {id : Nat} {a b : Date} {rt : RecurringTodo}
    (hf : findTemplate s id = some rt) {d : Date} (hd : d ∈ getOccurrences rt a b) :
    d ∈ existingDatesOf (afterCreate s (runCreated s id a b rt)) id a b ∨
      excIsSkip (lookupExc (excsFor s id) d) = true := by
  have hcov := @createLoop_covers rt (existingDatesOf s id a b) (excsFor s id)
    (getOccurrences rt a b) s.nextTodoId d hd
  rcases hcov with hex | hsk | ⟨td, htd, hrd⟩
  · left
    obtain ⟨td, htd, h1, h2, h3, h4⟩ := mem_existingDatesOf.mp hex
    exact mem_existingDatesOf.mpr ⟨td, List.mem_append_left _ htd, h1, h2, h3, h4⟩
  · right; exact hsk
  · left
    obtain ⟨d', hd', hnex, hskf, hid', hrd', hdue⟩ := createLoop_mem htd
    have hdd : d' = d := Option.some.inj (hrd'.symm.trans hrd)
    subst hdd
    have hwin := getOccurrences_window hd'
    refine mem_existingDatesOf.mpr ⟨td, List.mem_append_right _ htd, ?_, hrd', hwin.1, hwin.2⟩
    rw [hid', findTemplate_id hf]

theorem second_run {s : Store} {id : Nat} {a b : Date} (n1 n2 : Nat)
    {rt : RecurringTodo} (hf : findTemplate s id = some rt) :
    (generateInstances (generateInstances s id a b n1).1 id a b n2).2 = 0 ∧
      (generateInstances (generateInstances s id a b n1).1 id a b n2).1.todos =
        (generateInstances s id a b n1).1.todos := by
  by_cases ha : rt.isActive = true
  · have h1 := @generateInstances_active s id a b n1 rt hf ha
    have hf1 : findTemplate (generateInstances s id a b n1).1 id =
        some { rt with lastGenerated := some n1 } := by
      rw [h1]
      show findTemplate
        (updateLastGenerated (afterCreate s (runCreated s id a b rt)) id n1) id = _
      rw [findTemplate_update, findTemplate_afterCreate, hf]
      rfl
    have ha1 : ({ rt with lastGenerated := some n1 } : RecurringTodo).isActive = true := ha
    have h2 := @generateInstances_active (generateInstances s id a b n1).1 id a b n2
      { rt with lastGenerated := some n1 } hf1 ha1
    have hnil : (runCreated (generateInstances s id a b n1).1 id a b
        { rt with lastGenerated := some n1 }).1 = [] := by
      unfold runCreated
      rw [getOccurrences_lastGenerated]
      refine createLoop_nil _ ?_
      intro d hd
      rcases run_covers hf hd with hex | hsk
      · left
        rw [h1]
        exact hex
      · right
        rw [h1]
        exact hsk
    constructor
    · rw [h2, hnil]
      rfl
    · rw [h2]
      show (generateInstances s id a b n1).1.todos ++
          (runCreated (generateInstances s id a b n1).1 id a b
            { rt with lastGenerated := some n1 }).1 =
        (generateInstances s id a b n1).1.todos
      rw [hnil, List.append_nil]
  · have ha' : rt.isActive = false := bool_not_true ha
    have h0 : ∀ n : Nat, generateInstances s id a b n = (s, 0) := fun n =>
      generateInstances_inactive hf ha'
    simp [h0]

theorem generateInstances_frame (s : Store) (id : Nat) (a b : Date) (now : Nat) :
    ∃ tail, (generateInstances s id a b now).1.todos = s.todos ++ tail ∧
      (generateInstances s id a b now).1.exceptions = s.exceptions := by
  cases hf : findTemplate s id with
  | none =>
      rw [generateInstances_missing hf]
      exact ⟨[], (List.append_nil _).symm, rfl⟩
  | some rt =>
      by_cases ha : rt.isActive = true
      · rw [generateInstances_active hf ha]
        exact ⟨(runCreated s id a b rt).1, rfl, rfl⟩
      · rw [generateInstances_inactive hf (bool_not_true ha)]
        exact ⟨[], (List.append_nil _).symm, rfl⟩

theorem run_count_le_one {s : Store} {id : Nat} {a b : Date} {now : Nat}
    {rt : RecurringTodo} (hf : findTemplate s id = some rt)
    (hv : ValidDate rt.startDate) (hi : 1 ≤ rt.interval) (tid : Nat) (d : Date)
    (hle : instCount s tid d ≤ 1) :
    instCount (generateInstances s id a b now).1 tid d ≤ 1 := by
  by_cases ha : rt.isActive = true
  · rw [generateInstances_active hf ha]
    show ((s.todos ++ (runCreated s id a b rt).1).countP (instMatch tid d)) ≤ 1
    rw [List.countP_append]
    have hle' : s.todos.countP (instMatch tid d) ≤ 1 := hle
    by_cases hzero : (runCreated s id a b rt).1.countP (instMatch tid d) = 0
    · omega
    · have hnd := getOccurrences_nodup hv hi a b
      have hcle : (runCreated s id a b rt).1.countP (instMatch tid d) ≤ 1 :=
        createLoop_count_le_one s.nextTodoId hnd
      obtain ⟨td, htd, hptd⟩ := List.countP_pos_iff.mp (Nat.pos_of_ne_zero hzero)
      obtain ⟨d', hd', hnex, _hsk, hid', hrd', _hdue⟩ := createLoop_mem htd
      unfold instMatch at hptd
      have hpp := of_decide_eq_true hptd
      have htid : rt.id = tid := Option.some.inj (hid'.symm.trans hpp.1)
      have hdd : d' = d := Option.some.inj (hrd'.symm.trans hpp.2)
      subst hdd
      have hwin := getOccurrences_window hd'
      have hzero2 : s.todos.countP (instMatch tid d') = 0 := by
        refine List.countP_eq_zero.mpr ?_
        intro td0 htd0 hp0
        unfold instMatch at hp0
        have hq := of_decide_eq_true hp0
        apply hnex
        refine mem_existingDatesOf.mpr ⟨td0, htd0, ?_, hq.2, hwin.1, hwin.2⟩
        rw [hq.1, ← htid, findTemplate_id hf]
      omega
  · rw [generateInstances_inactive hf (bool_not_true ha)]
    exact hle

theorem applyUntil_subset (u : Option Date) (l : List Date) : applyUntil u l ⊆ l := by
  cases u with
  | none => exact fun d h => h
  | some e => exact (List.filter_sublist l).subset

theorem applyCount_subset (c : Option Nat) (l : List Date) : applyCount c l ⊆ l := by
  cases c with
  | none => exact fun d h => h
  | some n => exact List.take_subset n l

theorem getOccurrences_subset_rule {rt : RecurringTodo} {a b : Date} :
    getOccurrences rt a b ⊆ ruleOccurrences rt b := by
  intro d h
  unfold getOccurrences at h
  have h1 := (List.filter_sublist _).subset h
  exact applyUntil_subset _ _ (applyCount_subset _ _ h1)

theorem ruleOccurrences_subset_raw {rt : RecurringTodo} {b : Date} :
    ruleOccurrences rt b ⊆ rawCands rt (fuelFor rt.startDate b) := by
  intro d h
  exact (List.filter_sublist _).subset h

theorem resolveDue_reschedule {e : RecurrenceException} {d nd : Date}
    (h1 : e.action = "reschedule") (h2 : e.newDate = some nd) :
    resolveDue (some e) d = nd := by
  show (match e.newDate with
    | some nd => if e.action = "reschedule" then nd else d
    | none => d) = nd
  rw [h2]
  simp [h1]

theorem excIsSkip_of_action {e : RecurrenceException} (h : e.action = "skip") :
    excIsSkip (some e) = true := by
  unfold excIsSkip
  simp [h]

theorem run_skip_count {s : Store} {id : Nat} {a b : Date} {now : Nat}
    {rt : RecurringTodo} (hf : findTemplate s id = some rt) {d : Date}
    {e : RecurrenceException} (hl : lookupExc (excsFor s id) d = some e)
    (hskip : e.action = "skip") :
    instCount (generateInstances s id a b now).1 id d = instCount s id d := by
  by_cases ha : rt.isActive = true
  · rw [generateInstances_active hf ha]
    show ((s.todos ++ (runCreated s id a b rt).1).countP (instMatch id d)) =
      s.todos.countP (instMatch id d)
    rw [List.countP_append]
    have hz : (runCreated s id a b rt).1.countP (instMatch id d) = 0 := by
      refine List.countP_eq_zero.mpr ?_
      intro td htd hp
      obtain ⟨d', hd', _hnex, hskf, _hid', hrd', _hdue⟩ := createLoop_mem htd
      unfold instMatch at hp
      have hq := of_decide_eq_true hp
      have hdd : d' = d := Option.some.inj (hrd'.symm.trans hq.2)
      rw [hdd, hl] at hskf
      rw [excIsSkip_of_action hskip] at hskf
      exact Bool.noConfusion hskf
    omega
  · rw [generateInstances_inactive hf (bool_not_true ha)]

theorem run_creates_for {s : Store} {id : Nat} {a b : Date} {now : Nat}
    {rt : RecurringTodo} (hf : findTemplate s id = some rt)
    (ha : rt.isActive = true) {d : Date} (hd : d ∈ getOccurrences rt a b)
    (hnex : d ∉ existingDatesOf s id a b)
    (hns : excIsSkip (lookupExc (excsFor s id) d) = false) :
    ∃ td ∈ (generateInstances s id a b now).1.todos,
      td.recurringTodoId = some id ∧ td.recurringDate = some d ∧
      td.dueDate = resolveDue (lookupExc (excsFor s id) d) d := by
  rcases @createLoop_covers rt (existingDatesOf s id a b) (excsFor s id)
      (getOccurrences rt a b) s.nextTodoId d hd with h | h | ⟨td, htd, hrd⟩
  · exact absurd h hnex
  · rw [h] at hns
    exact absurd hns (by simp)
  · obtain ⟨d', hd', _hnex2, _hskf, hid', hrd', hdue⟩ := createLoop_mem htd
    have hdd : d' = d := Option.some.inj (hrd'.symm.trans hrd)
    subst hdd
    refine ⟨td, ?_, by rw [hid', findTemplate_id hf], hrd', hdue⟩
    rw [generateInstances_active hf ha]
    exact List.mem_append_right _ htd

theorem excIsSkip_some (e : RecurrenceException) :
    excIsSkip (some e) = decide (e.action = "skip") := rfl

/-! ## Concrete fixtures used by witnesses and counterexamples -/

/-- An active DAILY template, id 1, user 1, starting 2025-01-06, no end. -/
def rtDailyW : RecurringTodo :=
  ⟨1, 1, "w", "", "MEDIUM", RecurrenceFrequency.DAILY, 1, none, none,
    ⟨2025, 1, 6⟩, RecurrenceEndType.NEVER, none, none, none, true⟩

/-- A store holding only rtDailyW. -/
def storeW : Store := ⟨[rtDailyW], [], [], 10, 20⟩

/-- An inactive DAILY template, id 2. -/
def rtInactiveW : RecurringTodo :=
  ⟨2, 1, "w", "", "MEDIUM", RecurrenceFrequency.DAILY, 1, none, none,
    ⟨2025, 1, 6⟩, RecurrenceEndType.NEVER, none, none, none, false⟩

/-- A store holding only the inactive template. -/
def storeInactiveW : Store := ⟨[rtInactiveW], [], [], 10, 20⟩

/-- A WEEKLY template on Mondays, id 3, starting Monday 2025-01-06. -/
def rtWeeklyW : RecurringTodo :=
  ⟨3, 1, "w", "", "MEDIUM", RecurrenceFrequency.WEEKLY, 1, some ["MO"], none,
    ⟨2025, 1, 6⟩, RecurrenceEndType.NEVER, none, none, none, true⟩

/-- A skip exception for rtWeeklyW on 2025-01-20. -/
def excSkipW : RecurrenceException := ⟨1, 3, ⟨2025, 1, 20⟩, "skip", none⟩

/-- A reschedule exception for rtWeeklyW moving 2025-01-13 to 2025-01-15. -/
def excReschedW : RecurrenceException :=
  ⟨2, 3, ⟨2025, 1, 13⟩, "reschedule", some ⟨2025, 1, 15⟩⟩

/-- A store holding rtWeeklyW with both exceptions and no instances. -/
def storeExcW : Store := ⟨[rtWeeklyW], [], [excSkipW, excReschedW], 10, 10⟩

/-- An empty store. -/
def storeEmpty : Store := ⟨[], [], [], 0, 0⟩

/-- A MONTHLY template anchored on 2025-01-31 (day 31), id 2. -/
def rtMonthly31W : RecurringTodo :=
  ⟨2, 1, "w", "", "MEDIUM", RecurrenceFrequency.MONTHLY, 1, none, none,
    ⟨2025, 1, 31⟩, RecurrenceEndType.NEVER, none, none, none, true⟩

/-- A DAILY template starting 2025-03-01 with endType AFTER_COUNT, count 3. -/
def rtDailyCount3 : RecurringTodo :=
  ⟨1, 1, "w", "", "MEDIUM", RecurrenceFrequency.DAILY, 1, none, none,
    ⟨2025, 3, 1⟩, RecurrenceEndType.AFTER_COUNT, none, some 3, none, true⟩

/-- The same template with count 0. -/
def rtDailyCount0 : RecurringTodo :=
  ⟨1, 1, "w", "", "MEDIUM", RecurrenceFrequency.DAILY, 1, none, none,
    ⟨2025, 3, 1⟩, RecurrenceEndType.AFTER_COUNT, none, some 0, none, true⟩

/-- A DAILY template starting 2025-03-01 with endType ON_DATE, endDate 2025-03-03. -/
def rtOnDateW : RecurringTodo :=
  ⟨1, 1, "w", "", "MEDIUM", RecurrenceFrequency.DAILY, 1, none, none,
    ⟨2025, 3, 1⟩, RecurrenceEndType.ON_DATE, some ⟨2025, 3, 3⟩, none, none, true⟩

/-- An instance of template 1 with recurringDate 2025-01-06. -/
def todoW : Todo :=
  ⟨10, 1, "w", "", "MEDIUM", ⟨2025, 1, 6⟩, false, some 1, some ⟨2025, 1, 6⟩⟩

/-- A store already holding todoW. -/
def storeDupW : Store := ⟨[], [todoW], [], 11, 0⟩

/-- A store with one stored exception for (template 1, 2025-01-13). -/
def storeExcDup : Store := ⟨[], [], [⟨0, 1, ⟨2025, 1, 13⟩, "skip", none⟩], 0, 5⟩

/-- A store with template 1 (user 1), one of its instances and one of its
exceptions. -/
def storeDelW : Store :=
  ⟨[rtDailyW], [todoW], [⟨0, 1, ⟨2025, 1, 20⟩, "skip", none⟩], 11, 2⟩

/-! ## The claims -/

/-- C1: generation is idempotent: running generateInstances twice in a row
over the same window with unchanged exceptions creates zero instances the
second time and leaves the Todo table exactly as after the first run; and
a run preserves the invariant that a fixed template has at most one
instance per recurringDate (the dedup key), so repeated generation over
overlapping windows never duplicates an instance. -/
theorem claim1_generate_idempotent (s : Store) (id : Nat) (a b : Date)
    (n1 n2 : Nat) (rt : RecurringTodo) (hf : findTemplate s id = some rt)
    (hv : ValidDate rt.startDate) (hi : 1 ≤ rt.interval) :
    ((generateInstances (generateInstances s id a b n1).1 id a b n2).2 = 0 ∧
      (generateInstances (generateInstances s id a b n1).1 id a b n2).1.todos =
        (generateInstances s id a b n1).1.todos) ∧
    (∀ tid d, instCount s tid d ≤ 1 →
      instCount (generateInstances s id a b n1).1 tid d ≤ 1) :=
  ⟨second_run n1 n2 hf, fun tid d h => run_count_le_one hf hv hi tid d h⟩

/-- Witness for C1: the concrete daily template over a three-day window. -/
theorem claim1_witness :
    ((generateInstances (generateInstances storeW 1 ⟨2025, 1, 6⟩ ⟨2025, 1, 8⟩ 5).1 1
        ⟨2025, 1, 6⟩ ⟨2025, 1, 8⟩ 6).2 = 0 ∧
      (generateInstances (generateInstances storeW 1 ⟨2025, 1, 6⟩ ⟨2025, 1, 8⟩ 5).1 1
        ⟨2025, 1, 6⟩ ⟨2025, 1, 8⟩ 6).1.todos =
        (generateInstances storeW 1 ⟨2025, 1, 6⟩ ⟨2025, 1, 8⟩ 5).1.todos) ∧
    instCount (generateInstances storeW 1 ⟨2025, 1, 6⟩ ⟨2025, 1, 8⟩ 5).1 1
      ⟨2025, 1, 6⟩ ≤ 1 :=
  ⟨(claim1_generate_idempotent storeW 1 ⟨2025, 1, 6⟩ ⟨2025, 1, 8⟩ 5 6 rtDailyW rfl
      (by decide) (by decide)).1,
   (claim1_generate_idempotent storeW 1 ⟨2025, 1, 6⟩ ⟨2025, 1, 8⟩ 5 6 rtDailyW rfl
      (by decide) (by decide)).2 1 ⟨2025, 1, 6⟩ (by decide)⟩

/-- C2: exception precedence: with a skip exception for originalDate d no
run adds an instance for d (its dedup-key instance count is unchanged);
with a reschedule exception carrying newDate, a run materializing the
not-yet-existing occurrence d creates an instance whose dueDate is the
newDate while its recurringDate dedup key remains d; with no matching
exception the created instance has dueDate d. -/
theorem claim2_exception_precedence (s : Store) (id : Nat) (a b : Date)
    (now : Nat) (rt : RecurringTodo) (d : Date)
    (hf : findTemplate s id = some rt) :
    (∀ e, lookupExc (excsFor s id) d = some e → e.action = "skip" →
      instCount (generateInstances s id a b now).1 id d = instCount s id d) ∧
    (rt.isActive = true → d ∈ getOccurrences rt a b →
      d ∉ existingDatesOf s id a b →
      ∀ e nd, lookupExc (excsFor s id) d = some e → e.action = "reschedule" →
        e.newDate = some nd →
        ∃ td ∈ (generateInstances s id a b now).1.todos,
          td.recurringTodoId = some id ∧ td.recurringDate = some d ∧
            td.dueDate = nd) ∧
    (rt.isActive = true → d ∈ getOccurrences rt a b →
      d ∉ existingDatesOf s id a b → lookupExc (excsFor s id) d = none →
      ∃ td ∈ (generateInstances s id a b now).1.todos,
        td.recurringTodoId = some id ∧ td.recurringDate = some d ∧
          td.dueDate = d) := by
  refine ⟨?_, ?_, ?_⟩
  · intro e hl hskip
    exact run_skip_count hf hl hskip
  · intro ha hd hnex e nd hl hres hnew
    have hns : excIsSkip (lookupExc (excsFor s id) d) = false := by
      rw [hl, excIsSkip_some, hres]
      rfl
    obtain ⟨td, htd, h1, h2, h3⟩ := run_creates_for hf ha hd hnex hns
    refine ⟨td, htd, h1, h2, ?_⟩
    rw [h3, hl, resolveDue_reschedule hres hnew]
  · intro ha hd hnex hl
    have hns : excIsSkip (lookupExc (excsFor s id) d) = false := by
      rw [hl]
      rfl
    obtain ⟨td, htd, h1, h2, h3⟩ := run_creates_for hf ha hd hnex hns
    refine ⟨td, htd, h1, h2, ?_⟩
    rw [h3, hl]
    rfl

/-- Witness for C2: the weekly Monday template with a skip exception on
2025-01-20 and a reschedule exception 2025-01-13 to 2025-01-15. -/
theorem claim2_witness :
    (instCount (generateInstances storeExcW 3 ⟨2025, 1, 6⟩ ⟨2025, 1, 27⟩ 99).1 3
        ⟨2025, 1, 20⟩ = instCount storeExcW 3 ⟨2025, 1, 20⟩) ∧
    (∃ td ∈ (generateInstances storeExcW 3 ⟨2025, 1, 6⟩ ⟨2025, 1, 27⟩ 99).1.todos,
      td.recurringTodoId = some 3 ∧ td.recurringDate = some ⟨2025, 1, 13⟩ ∧
        td.dueDate = (⟨2025, 1, 15⟩ : Date)) ∧
    (∃ td ∈ (generateInstances storeExcW 3 ⟨2025, 1, 6⟩ ⟨2025, 1, 27⟩ 99).1.todos,
      td.recurringTodoId = some 3 ∧ td.recurringDate = some ⟨2025, 1, 6⟩ ∧
        td.dueDate = (⟨2025, 1, 6⟩ : Date)) :=
  ⟨(claim2_exception_precedence storeExcW 3 ⟨2025, 1, 6⟩ ⟨2025, 1, 27⟩ 99 rtWeeklyW
      ⟨2025, 1, 20⟩ rfl).1 excSkipW (by decide) rfl,
   (claim2_exception_precedence storeExcW 3 ⟨2025, 1, 6⟩ ⟨2025, 1, 27⟩ 99 rtWeeklyW
      ⟨2025, 1, 13⟩ rfl).2.1 rfl (by decide) (by decide) excReschedW ⟨2025, 1, 15⟩
      (by decide) rfl rfl,
   (claim2_exception_precedence storeExcW 3 ⟨2025, 1, 6⟩ ⟨2025, 1, 27⟩ 99 rtWeeklyW
      ⟨2025, 1, 6⟩ rfl).2.2 rfl (by decide) (by decide) (by decide)⟩

/-- C3: an inactive template makes generateInstances a complete no-op: it
reports zero created instances and returns the store untouched - no
instance creation, no lastGenerated update, previously materialized
instances unchanged. -/
theorem claim3_inactive_noop (s : Store) (id : Nat) (a b : Date) (now : Nat)
    (rt : RecurringTodo) (hf : findTemplate s id = some rt)
    (ha : rt.isActive = false) : generateInstances s id a b now = (s, 0) :=
  generateInstances_inactive hf ha

/-- Witness for C3 at the concrete inactive template. -/
theorem claim3_witness :
    generateInstances storeInactiveW 2 ⟨2025, 1, 6⟩ ⟨2025, 1, 8⟩ 7 =
      (storeInactiveW, 0) :=
  claim3_inactive_noop storeInactiveW 2 ⟨2025, 1, 6⟩ ⟨2025, 1, 8⟩ 7 rtInactiveW rfl rfl

/-- C4 counterexample: the claim says generate returns the number of
instances created as an integer; the TypeScript generateInstances has
return type Promise of void. At this input the run inserts one instance
(the observed insert count and the table growth are both 1), yet the value
returned to the caller is the unit (void) value, not the integer 1. -/
theorem claim4_counterexample :
    (generateInstances storeW 1 ⟨2025, 1, 6⟩ ⟨2025, 1, 6⟩ 0).2 = 1 ∧
    (generateInstances storeW 1 ⟨2025, 1, 6⟩ ⟨2025, 1, 6⟩ 0).1.todos.length = 1 ∧
    generateInstancesReturn storeW 1 ⟨2025, 1, 6⟩ ⟨2025, 1, 6⟩ 0 = () := by
  decide

/-- C4 amended: generateInstances returns no value to its caller (its
return type is void, so the created count is not reported); when the
template is missing or inactive the call is an immediate error-free no-op:
the store is unchanged and nothing is created. -/
theorem claim4_missing_or_inactive_noop (s : Store) (id : Nat) (a b : Date)
    (now : Nat)
    (h : findTemplate s id = none ∨
      ∃ rt, findTemplate s id = some rt ∧ rt.isActive = false) :
    generateInstances s id a b now = (s, 0) ∧
      generateInstancesReturn s id a b now = () := by
  rcases h with h | ⟨rt, hf, ha⟩
  · exact ⟨generateInstances_missing h, rfl⟩
  · exact ⟨generateInstances_inactive hf ha, rfl⟩

/-- Witness for the amended C4: a missing template in the empty store. -/
theorem claim4_witness :
    generateInstances storeEmpty 1 ⟨2025, 1, 6⟩ ⟨2025, 1, 8⟩ 0 = (storeEmpty, 0) ∧
      generateInstancesReturn storeEmpty 1 ⟨2025, 1, 6⟩ ⟨2025, 1, 8⟩ 0 = () :=
  claim4_missing_or_inactive_noop storeEmpty 1 ⟨2025, 1, 6⟩ ⟨2025, 1, 8⟩ 0
    (Or.inl rfl)

/-- C5: MONTHLY clamping (the evaluator core is modelled from the spec,
the rrule library being outside the repository, while the option building
follows the source): every emitted MONTHLY occurrence falls on the anchor
day-of-month clamped to the length of its month, so a month shorter than
the anchor day yields its last day instead of being skipped; in
particular the template anchored on 2025-01-31 emits exactly 2025-02-28
over the February 2025 window. -/
theorem claim5_monthly_clamping :
    (∀ (rt : RecurringTodo) (a b : Date),
      rt.frequency = RecurrenceFrequency.MONTHLY →
      ∀ d ∈ getOccurrences rt a b,
        d.day = min (anchorDayOf rt) (daysInMonth d.year d.month) ∧
          (daysInMonth d.year d.month < anchorDayOf rt →
            d.day = daysInMonth d.year d.month)) ∧
    getOccurrences rtMonthly31W ⟨2025, 2, 1⟩ ⟨2025, 2, 28⟩ = [⟨2025, 2, 28⟩] := by
  constructor
  · intro rt a b hfreq d hd
    have hraw := ruleOccurrences_subset_raw (getOccurrences_subset_rule hd)
    have hm : d ∈ monthlyCands rt.startDate (anchorDayOf rt) rt.interval
        (fuelFor rt.startDate b) := by
      unfold rawCands at hraw
      rw [hfreq] at hraw
      exact hraw
    obtain ⟨k, _, hk⟩ := List.mem_map.mp hm
    have h1 : d.day = min (anchorDayOf rt) (daysInMonth d.year d.month) := by
      rw [← hk]
      rfl
    refine ⟨h1, ?_⟩
    intro hlt
    rw [h1]
    omega
  · decide

/-- Witness for C5: instantiating the clamping property at the concrete
February 2025 occurrence of the template anchored on the 31st. -/
theorem claim5_witness : (⟨2025, 2, 28⟩ : Date).day = daysInMonth 2025 2 :=
  (claim5_monthly_clamping.1 rtMonthly31W ⟨2025, 2, 1⟩ ⟨2025, 2, 28⟩ rfl
    ⟨2025, 2, 28⟩ (by decide)).2 (by decide)

/-- C6 counterexample: a template with endType AFTER_COUNT and count = 0.
The source only passes count to the rule when it is JavaScript-truthy, so
a zero count is dropped and the rule behaves as never-ending: the
evaluator returns two occurrences over this window, although the claim
(with n = 0) allows none beyond the 0th. -/
theorem claim6_counterexample :
    rtDailyCount0.endType = RecurrenceEndType.AFTER_COUNT ∧
    rtDailyCount0.count = some 0 ∧
    (getOccurrences rtDailyCount0 ⟨2025, 3, 1⟩ ⟨2025, 3, 2⟩).length = 2 := by
  decide

/-- C6 amended: for endType AFTER_COUNT with count n at least 1 the
evaluator never returns more than n occurrences and only occurrences among
the first n of the rule counted globally from startDate, whatever the
window (count = 0 is dropped by the source and behaves as NEVER); for
endType ON_DATE with endDate set no returned occurrence is past endDate;
and the count-3 daily example over the window through 2025-12-31 yields
exactly 2025-03-01, 03-02 and 03-03. -/
theorem claim6_termination :
    (∀ (rt : RecurringTodo) (a b : Date) (n : Nat),
      rt.endType = RecurrenceEndType.AFTER_COUNT → rt.count = some n → 0 < n →
      (getOccurrences rt a b).length ≤ n ∧
        ∀ d ∈ getOccurrences rt a b, d ∈ (ruleOccurrences rt b).take n) ∧
    (∀ (rt : RecurringTodo) (a b e : Date),
      rt.endType = RecurrenceEndType.ON_DATE → rt.endDate = some e →
      ∀ d ∈ getOccurrences rt a b, dateLe d e) ∧
    getOccurrences rtDailyCount3 ⟨2025, 3, 1⟩ ⟨2025, 12, 31⟩ =
      [⟨2025, 3, 1⟩, ⟨2025, 3, 2⟩, ⟨2025, 3, 3⟩] := by
  refine ⟨?_, ?_, by decide⟩
  · intro rt a b n hET hcount hn
    have hbe : buildEnd rt = (none, some n) := by
      unfold buildEnd
      rw [hET, hcount]
      have hz : n ≠ 0 := by omega
      simp [hz]
    unfold getOccurrences
    rw [hbe]
    constructor
    · show (((ruleOccurrences rt b).take n).filter
        (fun d => decide (dateLe a d ∧ dateLe d b))).length ≤ n
      have h1 := List.length_filter_le
        (fun d => decide (dateLe a d ∧ dateLe d b)) ((ruleOccurrences rt b).take n)
      have h2 : ((ruleOccurrences rt b).take n).length ≤ n := by
        rw [List.length_take]
        omega
      omega
    · intro d hd
      exact (List.mem_filter.mp hd).1
  · intro rt a b e hET hend d hd
    have hbe : buildEnd rt = (some e, none) := by
      unfold buildEnd
      rw [hET, hend]
      simp
    unfold getOccurrences at hd
    rw [hbe] at hd
    have h1 := (List.mem_filter.mp hd).1
    have h2 : d ∈ (ruleOccurrences rt b).filter (fun x => decide (dateLe x e)) := h1
    exact of_decide_eq_true (List.mem_filter.mp h2).2

/-- Witness for the amended C6: the AFTER_COUNT part at the count-3 daily
template over the huge window, and the ON_DATE part at a template ending
2025-03-03. -/
theorem claim6_witness :
    ((getOccurrences rtDailyCount3 ⟨2025, 3, 1⟩ ⟨2025, 12, 31⟩).length ≤ 3 ∧
      (⟨2025, 3, 1⟩ : Date) ∈
        (ruleOccurrences rtDailyCount3 ⟨2025, 12, 31⟩).take 3) ∧
    dateLe ⟨2025, 3, 2⟩ ⟨2025, 3, 3⟩ :=
  ⟨⟨(claim6_termination.1 rtDailyCount3 ⟨2025, 3, 1⟩ ⟨2025, 12, 31⟩ 3 rfl rfl
        (by decide)).1,
    (claim6_termination.1 rtDailyCount3 ⟨2025, 3, 1⟩ ⟨2025, 12, 31⟩ 3 rfl rfl
        (by decide)).2 ⟨2025, 3, 1⟩ (by decide)⟩,
   claim6_termination.2.1 rtOnDateW ⟨2025, 3, 1⟩ ⟨2025, 3, 10⟩ ⟨2025, 3, 3⟩ rfl rfl
     ⟨2025, 3, 2⟩ (by decide)⟩

/-- C7 counterexample: the migration defines no unique index over
(recurringTodoId, recurringDate) - only the non-unique index
Todo_recurringTodoId_idx - so instance insertion is unconditional:
inserting a second instance for the same template and recurringDate
succeeds and leaves two matching rows. The store never raises the
duplicate-instance conflict the claim describes, and generateInstances
contains no handling to swallow one. -/
theorem claim7_counterexample :
    instCount storeDupW 1 ⟨2025, 1, 6⟩ = 1 ∧
    instCount (createTodo storeDupW 1 "w" "" "MEDIUM" ⟨2025, 1, 6⟩ (some 1)
        (some ⟨2025, 1, 6⟩)).1 1 ⟨2025, 1, 6⟩ = 2 := by
  decide

/-- C7 amended: instance creation at the store is an unconditional
insert: it always succeeds and always increments the number of rows
holding its (templateId, recurringDate) key, even when such a row already
exists; duplicate avoidance within a run comes only from the pre-loaded
existing-date check of the materializer. -/
theorem claim7_unconditional_insert (s : Store) (uid : Nat)
    (ti de pr : String) (due : Date) (tid : Nat) (d : Date) :
    instCount (createTodo s uid ti de pr due (some tid) (some d)).1 tid d =
      instCount s tid d + 1 := by
  show ((s.todos ++
      [(⟨s.nextTodoId, uid, ti, de, pr, due, false, some tid, some d⟩ : Todo)]).countP
    (instMatch tid d)) = s.todos.countP (instMatch tid d) + 1
  rw [List.countP_append]
  simp [instMatch]

/-- C8 counterexample: the claim says addException fails with a
validation error when action is reschedule and newDate is absent; the
service-level addException performs no validation and succeeds, storing
the exception row with a null newDate (only the HTTP route rejects the
request before it reaches the service). -/
theorem claim8_counterexample :
    addException storeEmpty 1 ⟨2025, 1, 13⟩ "reschedule" none =
      Except.ok ({ storeEmpty with exceptions := [⟨0, 1, ⟨2025, 1, 13⟩, "reschedule", none⟩], nextExceptionId := 1 },
        ⟨0, 1, ⟨2025, 1, 13⟩, "reschedule", none⟩) := rfl

/-- C8 amended: the reschedule-without-newDate case is rejected by the
HTTP route with a 400 and stores nothing; adding an exception for a
(templateId, originalDate) pair that already has one fails at the store
with the unique-constraint error P2002; and a successful add preserves
the invariant of at most one exception per pair. -/
theorem claim8_exception_validation :
    (∀ (s : Store) (id : Nat) (od : Date),
      postException s ⟨some id, some od, some "reschedule", none⟩ = (400, s)) ∧
    (∀ (s : Store) (tid : Nat) (od : Date) (act : String) (nd : Option Date),
      0 < excCount s tid od → addException s tid od act nd = Except.error "P2002") ∧
    (∀ (s : Store) (tid : Nat) (od : Date) (act : String) (nd : Option Date)
        (s2 : Store) (e : RecurrenceException),
      (∀ t o, excCount s t o ≤ 1) →
      addException s tid od act nd = Except.ok (s2, e) →
      ∀ t o, excCount s2 t o ≤ 1) := by
  refine ⟨fun s id od => rfl, ?_, ?_⟩
  · intro s tid od act nd h
    obtain ⟨e, he, hpe⟩ := List.countP_pos_iff.mp h
    unfold addException
    have hany : s.exceptions.any (fun e2 =>
        decide (e2.recurringTodoId = tid ∧ e2.originalDate = od)) = true :=
      List.any_eq_true.mpr ⟨e, he, hpe⟩
    rw [if_pos hany]
  · intro s tid od act nd s2 e huni hok t o
    unfold addException at hok
    by_cases hany : s.exceptions.any (fun e =>
        decide (e.recurringTodoId = tid ∧ e.originalDate = od)) = true
    · rw [if_pos hany] at hok
      cases hok
    · rw [if_neg hany] at hok
      have hs2 : s2 = { s with exceptions := s.exceptions ++ [⟨s.nextExceptionId, tid, od, act, nd⟩], nextExceptionId := s.nextExceptionId + 1 } := by
        cases hok
        rfl
      rw [hs2]
      show ((s.exceptions ++
          [(⟨s.nextExceptionId, tid, od, act, nd⟩ : RecurrenceException)]).countP
        (fun e2 => decide (e2.recurringTodoId = t ∧ e2.originalDate = o))) ≤ 1
      rw [List.countP_append]
      have hb := huni t o
      have hb' : s.exceptions.countP
          (fun e2 => decide (e2.recurringTodoId = t ∧ e2.originalDate = o)) ≤ 1 := hb
      by_cases hto : t = tid ∧ o = od
      · have hzero : s.exceptions.countP
            (fun e2 => decide (e2.recurringTodoId = t ∧ e2.originalDate = o)) = 0 := by
          refine List.countP_eq_zero.mpr ?_
          intro e2 he2 hpe2
          apply hany
          refine List.any_eq_true.mpr ⟨e2, he2, ?_⟩
          have hq := of_decide_eq_true hpe2
          rw [decide_eq_true_eq]
          exact ⟨hto.1 ▸ hq.1, hto.2 ▸ hq.2⟩
        have hone : ([(⟨s.nextExceptionId, tid, od, act, nd⟩ : RecurrenceException)].countP
            (fun e2 => decide (e2.recurringTodoId = t ∧ e2.originalDate = o))) ≤ 1 := by
          simp [List.countP_cons]
          split <;> omega
        omega
      · have hz1 : ([(⟨s.nextExceptionId, tid, od, act, nd⟩ : RecurrenceException)].countP
            (fun e2 => decide (e2.recurringTodoId = t ∧ e2.originalDate = o))) = 0 := by
          refine List.countP_eq_zero.mpr ?_
          intro e2 he2 hpe2
          have he2' : e2 = ⟨s.nextExceptionId, tid, od, act, nd⟩ := by
            simpa using he2
          have hq := of_decide_eq_true hpe2
          rw [he2'] at hq
          exact hto ⟨hq.1.symm, hq.2.symm⟩
        omega

/-- Witness for the amended C8: the route rejection, the duplicate-pair
store failure, and pair uniqueness after a successful add, each at
concrete inputs. -/
theorem claim8_witness :
    postException storeEmpty ⟨some 1, some ⟨2025, 1, 13⟩, some "reschedule", none⟩ =
      (400, storeEmpty) ∧
    addException storeExcDup 1 ⟨2025, 1, 13⟩ "skip" none =
      Except.error "P2002" ∧
    excCount { storeEmpty with exceptions := [⟨0, 1, ⟨2025, 1, 13⟩, "skip", none⟩], nextExceptionId := 1 } 1 ⟨2025, 1, 13⟩ ≤ 1 :=
  ⟨claim8_exception_validation.1 storeEmpty 1 ⟨2025, 1, 13⟩,
   claim8_exception_validation.2.1 storeExcDup 1 ⟨2025, 1, 13⟩ "skip" none (by decide),
   claim8_exception_validation.2.2 storeEmpty 1 ⟨2025, 1, 13⟩ "skip" none
     { storeEmpty with exceptions := [⟨0, 1, ⟨2025, 1, 13⟩, "skip", none⟩], nextExceptionId := 1 }
     ⟨0, 1, ⟨2025, 1, 13⟩, "skip", none⟩
     (fun t o => by simp [excCount, storeEmpty]) rfl 1 ⟨2025, 1, 13⟩⟩

/-- C9 counterexample: deleting a template cascades to its exceptions but
not to its task instances: the foreign key from Todo is ON DELETE SET
NULL, so after the delete the instance row still exists with
recurringTodoId set to null, contradicting the claim that every
TaskInstance the template produced is removed. -/
theorem claim9_counterexample :
    (deleteRecurringTodo storeDelW 1 1).2 = true ∧
    (deleteRecurringTodo storeDelW 1 1).1.exceptions = [] ∧
    (deleteRecurringTodo storeDelW 1 1).1.todos =
      [{ todoW with recurringTodoId := none }] := by
  decide

/-- C9 amended: a successful delete removes every exception of the
template (cascade) and leaves no instance referencing the template - but
by nulling recurringTodoId rather than deleting: the number of Todo rows
is unchanged. -/
theorem claim9_delete_cascades (s : Store) (id uid : Nat)
    (h : (deleteRecurringTodo s id uid).2 = true) :
    ((deleteRecurringTodo s id uid).1.exceptions.countP
        (fun e => decide (e.recurringTodoId = id)) = 0) ∧
    ((deleteRecurringTodo s id uid).1.todos.countP
        (fun td => decide (td.recurringTodoId = some id)) = 0) ∧
    (deleteRecurringTodo s id uid).1.todos.length = s.todos.length := by
  by_cases hm : (s.recurringTodos.filter
      (fun rt => decide (rt.id = id ∧ rt.userId = uid))).isEmpty
  · exfalso
    have : (deleteRecurringTodo s id uid).2 = false := by
      unfold deleteRecurringTodo
      rw [if_pos hm]
    rw [this] at h
    exact Bool.noConfusion h
  · have hdel : deleteRecurringTodo s id uid =
        ({ s with
            recurringTodos := s.recurringTodos.filter
              (fun rt => !decide (rt.id = id ∧ rt.userId = uid)),
            exceptions := s.exceptions.filter (fun e => decide (e.recurringTodoId ≠ id)),
            todos := s.todos.map (fun td =>
              if td.recurringTodoId = some id then { td with recurringTodoId := none } else td) },
          true) := by
      unfold deleteRecurringTodo
      rw [if_neg hm]
    rw [hdel]
    refine ⟨?_, ?_, by simp⟩
    · refine List.countP_eq_zero.mpr ?_
      intro e he hpe
      have h1 := (List.mem_filter.mp he).2
      have h2 := of_decide_eq_true h1
      exact h2 (of_decide_eq_true hpe)
    · refine List.countP_eq_zero.mpr ?_
      intro td htd hptd
      obtain ⟨td0, _, htd0⟩ := List.mem_map.mp htd
      have hq := of_decide_eq_true hptd
      by_cases hcase : td0.recurringTodoId = some id
      · rw [if_pos hcase] at htd0
        rw [← htd0] at hq
        exact Option.noConfusion hq
      · rw [if_neg hcase] at htd0
        rw [← htd0] at hq
        exact hcase hq

/-- Witness for the amended C9 at the concrete store. -/
theorem claim9_witness :
    ((deleteRecurringTodo storeDelW 1 1).1.exceptions.countP
        (fun e => decide (e.recurringTodoId = 1)) = 0) ∧
    ((deleteRecurringTodo storeDelW 1 1).1.todos.countP
        (fun td => decide (td.recurringTodoId = some 1)) = 0) ∧
    (deleteRecurringTodo storeDelW 1 1).1.todos.length = storeDelW.todos.length :=
  claim9_delete_cascades storeDelW 1 1 (by decide)

/-- C10: generation only creates: a run of generateInstances appends its
new instances to the Todo table and leaves every pre-existing instance
untouched (never updated or deleted) and the exception table unchanged;
in particular an exception added after an instance was materialized never
removes or modifies that instance on later generation calls. -/
theorem claim10_generation_only_appends (s : Store) (id : Nat) (a b : Date)
    (now : Nat) :
    ∃ created, (generateInstances s id a b now).1.todos = s.todos ++ created ∧
      (generateInstances s id a b now).1.exceptions = s.exceptions := by
  cases hf : findTemplate s id with
  | none =>
      rw [generateInstances_missing hf]
      exact ⟨[], (List.append_nil _).symm, rfl⟩
  | some rt =>
      by_cases ha : rt.isActive = true
      · rw [generateInstances_active hf ha]
        exact ⟨(runCreated s id a b rt).1, rfl, rfl⟩
      · rw [generateInstances_inactive hf (bool_not_true ha)]
        exact ⟨[], (List.append_nil _).symm, rfl⟩

end TodoApp
